import Mathlib

/-!
# Verification of the football-app match pipeline (src/main.js renderer logic)

Shallow embedding of the match-data acquisition and normalization pipeline:
the status normalizer (`mapFDStatusToShort`), the per-match state reconciler
(lines 245-282 of src/main.js), the fetch orchestrator loop over leagues,
the cache layer of `loadTodaysMatches`, and the adaptive scheduler `tick`.

JavaScript nullable values are modelled with `Option`; the JS falsy-or
operator `x || d` on strings is `jsOr`; mutable module-level maps
(`lastKnownScores`, `lastKnownStatus`) are association lists threaded
through the computation; times are integer milliseconds (`Int`), matching
`Date.now()` arithmetic.
-/

namespace FootballApp

/-- A provider team object (`m.homeTeam` / `m.awayTeam`): optional numeric id,
optional name, optional crest URL. -/
structure Team where
  id : Option Nat
  name : Option String
  crest : Option String
deriving DecidableEq, Repr

/-- A raw provider match as consumed by the normalization step: `m.id`,
`m.utcDate`, `m.status`, the two teams, `m.score?.fullTime?.home/.away`,
and `m.competition?.name`. -/
structure RawMatch where
  id : Option Nat
  utcDate : String
  status : Option String
  homeTeam : Option Team
  awayTeam : Option Team
  scoreHome : Option Int
  scoreAway : Option Int
  competitionName : Option String
deriving DecidableEq, Repr

/-- A JavaScript value that can flow out of the `STATUS_MAP[status]`
lookup (lines 140-151) and through the status pipeline: either a string,
or the truthy non-string member inherited from `Object.prototype` when
`status` names one of its properties — property access on an object
literal traverses the prototype chain, so codes such as "toString" or
"constructor" return the inherited function (and "__proto__" the prototype
object), bypassing the `|| 'NS'` default. The inherited member is
identified by its key; two reads of the same key yield the same value, and
a read of a different key a different one, matching `===` on the actual
objects. -/
inductive StatusVal where
  | str (s : String)
  | inherited (key : String)
deriving DecidableEq, Repr

/-- The own property names of `Object.prototype`: a provider code equal to
one of these hits the prototype chain in `STATUS_MAP[status]`. -/
def protoKeys : List String :=
  ["constructor", "hasOwnProperty", "isPrototypeOf", "propertyIsEnumerable",
   "toLocaleString", "toString", "valueOf", "__proto__",
   "__defineGetter__", "__defineSetter__", "__lookupGetter__", "__lookupSetter__"]

/-- JS truthiness of a status value: the empty string is the only falsy
case; inherited prototype members (functions, the prototype object) are
truthy. -/
def StatusVal.truthy : StatusVal → Bool
  | .str s => !(s == "")
  | .inherited _ => true

/-- JS strict equality `v === lit` against a string literal: an inherited
prototype member is never equal to a string. -/
def StatusVal.eqStr : StatusVal → String → Bool
  | .str s, x => s == x
  | .inherited _, _ => false

/-- The canonical match shape produced by the reconciler (the object literal
at lines 270-281 of src/main.js). `goalsHome`/`goalsAway` are `none` for the
unknown marker `'-'`; `statusShort` carries whatever value `currentStatus`
ended up holding. -/
structure CanonicalMatch where
  leagueName : String
  homeName : String
  homeLogo : String
  awayName : String
  awayLogo : String
  goalsHome : Option Int
  goalsAway : Option Int
  fixtureDate : String
  statusShort : StatusVal
deriving DecidableEq, Repr

/-- `lastKnownScores`: match key to last known (home, away) score pair. -/
abbrev ScoreMap := List (String × Int × Int)

/-- `lastKnownStatus`: match key to last known status value. -/
abbrev StatusMap := List (String × StatusVal)

/-- JS object property read `map[key]`: first binding wins (later writes are
consed in front). -/
def mapLookup {α : Type} (k : String) : List (String × α) → Option α
  | [] => none
  | p :: rest => if p.1 = k then some p.2 else mapLookup k rest

theorem mapLookup_cons {α : Type} (k0 k : String) (v : α) (s : List (String × α)) :
    mapLookup k ((k0, v) :: s) = if k0 = k then some v else mapLookup k s := rfl

/-- The JS expression `o || d` for an optional string `o`: the default is
taken when `o` is absent or empty (falsy). -/
def jsOr (o : Option String) (d : String) : String :=
  match o with
  | some s => if s = "" then d else s
  | none => d

/-- `t?.id || t?.name` interpolated into a template string: a truthy
(non-zero) id prints as a number, otherwise the name is used, and a fully
absent value prints as `"undefined"`. -/
def teamIdent (t : Option Team) : String :=
  match t with
  | none => "undefined"
  | some tm =>
    match tm.id with
    | some i => if i = 0 then (match tm.name with | some n => n | none => "undefined") else toString i
    | none => match tm.name with | some n => n | none => "undefined"

/-- The fallback composite key `${home}-${away}` used when `m.id` is falsy. -/
def fallbackKey (m : RawMatch) : String :=
  teamIdent m.homeTeam ++ "-" ++ teamIdent m.awayTeam

/-- `const matchId = m.id || composite` (line 246): a truthy provider id is
used as the key, otherwise the team composite. -/
def matchKey (m : RawMatch) : String :=
  match m.id with
  | some i => if i = 0 then fallbackKey m else toString i
  | none => fallbackKey m

/-- `mapFDStatusToShort` (lines 149-151) with the `STATUS_MAP` table
(lines 140-147) inlined: a provider status equal to one of the six own keys
yields its short code; an absent status (`STATUS_MAP[undefined]` is
`undefined`) and any other non-prototype string fall to the `|| 'NS'`
default; a status naming an `Object.prototype` property returns the truthy
inherited member, which bypasses the default. -/
def mapFDStatusToShort (status : Option String) : StatusVal :=
  match status with
  | none => .str "NS"
  | some s =>
    if s = "IN_PLAY" then .str "LIVE"
    else if s = "PAUSED" then .str "HT"
    else if s = "FINISHED" then .str "FT"
    else if s = "POSTPONED" then .str "PST"
    else if s = "CANCELED" then .str "CANC"
    else if s = "SUSPENDED" then .str "SUSP"
    else if protoKeys.contains s then .inherited s
    else .str "NS"

/-- The test `!currentStatus || currentStatus === 'NS'` (line 262): true
exactly for the empty string and the string `NS`; an inherited prototype
member is truthy and not `===` any string, so the test is false for it. -/
def statusDefaulty (v : StatusVal) : Bool := !v.truthy || v.eqStr "NS"

/-- Score reconciliation (lines 252-260): both scores present are used
verbatim and recorded; otherwise the last known pair is substituted when one
exists, else both become the unknown marker. Returns the goal pair and the
updated score map. -/
def reconScore (scores : ScoreMap) (key : String) :
    Option Int → Option Int → (Option Int × Option Int) × ScoreMap
  | some h, some a => ((some h, some a), (key, h, a) :: scores)
  | _, _ =>
    match mapLookup key scores with
    | some p => ((some p.1, some p.2), scores)
    | none => ((none, none), scores)

/-- Status reconciliation (lines 262-268): a falsy or `NS` resolved status
is replaced by the last known status when one exists (map untouched); any
other resolved status — including a truthy inherited prototype member — is
recorded. -/
def reconStatus (statuses : StatusMap) (key : String) (s0 : StatusVal) :
    StatusVal × StatusMap :=
  if statusDefaulty s0 = true then
    match mapLookup key statuses with
    | some prev => (prev, statuses)
    | none => (s0, statuses)
  else (s0, (key, s0) :: statuses)

/-- One iteration of the normalization `map` body (lines 245-282): builds the
canonical match for one raw match and threads the two last-known maps. -/
def reconcileOne (leagueName : String) (scores : ScoreMap) (statuses : StatusMap)
    (m : RawMatch) : CanonicalMatch × ScoreMap × StatusMap :=
  let key := matchKey m
  let s0 := mapFDStatusToShort m.status
  let gs := reconScore scores key m.scoreHome m.scoreAway
  let st := reconStatus statuses key s0
  (⟨jsOr m.competitionName leagueName,
    jsOr (m.homeTeam.bind Team.name) "Unknown",
    jsOr (m.homeTeam.bind Team.crest) "",
    jsOr (m.awayTeam.bind Team.name) "Unknown",
    jsOr (m.awayTeam.bind Team.crest) "",
    gs.1.1, gs.1.2, m.utcDate, st.1⟩,
   gs.2, st.2)

/-- The whole normalization `map` over one league's filtered matches, with
the side effects on the two maps threaded left to right. -/
def reconcileBatch (leagueName : String) :
    ScoreMap → StatusMap → List RawMatch → List CanonicalMatch × ScoreMap × StatusMap
  | scores, statuses, [] => ([], scores, statuses)
  | scores, statuses, m :: rest =>
    let r := reconcileOne leagueName scores statuses m
    let rb := reconcileBatch leagueName r.2.1 r.2.2 rest
    (r.1 :: rb.1, rb.2.1, rb.2.2)

/-- Outcome of the single HTTP request issued for one league: a 429 status,
another non-ok status, a thrown network error, or a parsed body whose
`matches` array is `ms` (a malformed body is `ok []`). -/
inductive LeagueResponse where
  | rateLimited
  | httpError (code : Nat)
  | networkError
  | ok (ms : List RawMatch)
deriving DecidableEq, Repr

/-- The aggregate of one fetch batch: `allMatches`, `totalMatches`, the two
last-known maps after normalization, and the `hasRateLimit` flag. -/
structure BatchResult where
  allMatches : List CanonicalMatch
  total : Nat
  scores : ScoreMap
  statuses : StatusMap
  rateLimited : Bool
deriving DecidableEq, Repr

/-- The per-league fetch loop (lines 217-296): a 429 sets the flag and skips
the league, other errors skip it, and a parsed body is filtered to today's
date (in the reference timezone `ymd`) and normalized, threading the
last-known maps. A non-empty normalized list is appended and counted. -/
def processLeagues (ymd : String → String) (today : String) :
    List ((String × Nat) × LeagueResponse) → ScoreMap → StatusMap → Bool → BatchResult
  | [], s, t, rl => ⟨[], 0, s, t, rl⟩
  | (lg, resp) :: rest, s, t, rl =>
    match resp with
    | .rateLimited => processLeagues ymd today rest s t true
    | .httpError _ => processLeagues ymd today rest s t rl
    | .networkError => processLeagues ymd today rest s t rl
    | .ok raw =>
      let fd := raw.filter (fun m => ymd m.utcDate == today)
      let rb := reconcileBatch lg.1 s t fd
      let r := processLeagues ymd today rest rb.2.1 rb.2.2 rl
      if 0 < rb.1.length then ⟨rb.1 ++ r.allMatches, rb.1.length + r.total, r.scores, r.statuses, r.rateLimited⟩
      else ⟨r.allMatches, r.total, r.scores, r.statuses, r.rateLimited⟩

/-- The configured `leagues` object (lines 106-111). -/
def leagues : List (String × Nat) := [("PL", 2021), ("BL1", 2002), ("CL", 2001), ("PD", 2014)]

/-- `CACHE_DURATION = 120000` ms (line 176). -/
def CACHE_DURATION : Int := 120000

/-- The mutable module-level state read and written by `loadTodaysMatches`
and the scheduler: the cache triple, the `activeLeagues` set, and the two
last-known maps. -/
structure AppState where
  cachedMatches : List CanonicalMatch
  cachedDate : String
  lastFetchTime : Int
  activeLeagues : List String
  lastKnownScores : ScoreMap
  lastKnownStatus : StatusMap
deriving DecidableEq, Repr

/-- What the UI layer is told to show: a match list (`displayMatches`) or
the explicit no-matches message (`showNoMatchesMessage`). -/
inductive DisplayAction where
  | showMatches (ms : List CanonicalMatch)
  | noMatches
deriving DecidableEq, Repr

/-- Observable outcome of one `loadTodaysMatches` call: the new module
state, the display action, and how many transport requests were issued. -/
structure LoadResult where
  state : AppState
  display : DisplayAction
  fetchAttempts : Nat
deriving DecidableEq, Repr

/-- `shouldUseCache` (lines 201-203): non-empty cached list, same-day cache
date, and fresh fetch timestamp. -/
abbrev shouldUseCache (st : AppState) (today : String) (now : Int) : Prop :=
  0 < st.cachedMatches.length ∧ st.cachedDate = today ∧ now - st.lastFetchTime < CACHE_DURATION

/-- The fetch batch `loadTodaysMatches` computes when the cache is not
reused: all configured leagues, each answered by `resp`, starting from the
current last-known maps with the rate-limit flag down. -/
def freshBatch (ymd : String → String) (today : String) (resp : String → LeagueResponse)
    (st : AppState) : BatchResult :=
  processLeagues ymd today (leagues.map (fun l => (l, resp l.1))) st.lastKnownScores st.lastKnownStatus false

/-- The write of the normalization side effects back into the module state:
after the per-league loop, `lastKnownScores` and `lastKnownStatus` hold the
batch's final maps whatever the display outcome. -/
def commitMaps (st : AppState) (batch : BatchResult) : AppState :=
  { st with lastKnownScores := batch.scores, lastKnownStatus := batch.statuses }

/-- `loadTodaysMatches` (lines 188-327) as a state transformer: cache reuse
short-circuits with zero transport requests; otherwise the batch runs, the
last-known maps are committed, and the four display branches of
lines 300-320 pick the outcome. -/
def loadTodaysMatches (ymd : String → String) (today : String) (now : Int)
    (resp : String → LeagueResponse) (st : AppState) : LoadResult :=
  if shouldUseCache st today now then
    ⟨st, DisplayAction.showMatches st.cachedMatches, 0⟩
  else if 0 < (freshBatch ymd today resp st).total then
    ⟨{ commitMaps st (freshBatch ymd today resp st) with
        cachedMatches := (freshBatch ymd today resp st).allMatches,
        cachedDate := today, lastFetchTime := now },
     DisplayAction.showMatches (freshBatch ymd today resp st).allMatches, leagues.length⟩
  else if (freshBatch ymd today resp st).rateLimited = true
      ∧ 0 < st.cachedMatches.length ∧ st.cachedDate = today then
    ⟨commitMaps st (freshBatch ymd today resp st),
     DisplayAction.showMatches st.cachedMatches, leagues.length⟩
  else if 0 < st.cachedMatches.length ∧ st.cachedDate = today then
    ⟨commitMaps st (freshBatch ymd today resp st),
     DisplayAction.showMatches st.cachedMatches, leagues.length⟩
  else
    ⟨commitMaps st (freshBatch ymd today resp st), DisplayAction.noMatches, leagues.length⟩

/-- `hasLiveMatches` (lines 178-183): `s === 'LIVE' || s === 'HT'`. -/
def hasLiveMatches (ms : List CanonicalMatch) : Bool :=
  ms.any (fun m => m.statusShort.eqStr "LIVE" || m.statusShort.eqStr "HT")

/-- State owned by `startAutoRefresh` (lines 579-670): the remembered London
date, whether a kickoff one-shot is pending, whether the recurring interval
timer is armed, and its current period. -/
structure SchedState where
  lastLondonDate : String
  kickoffPending : Bool
  running : Bool
  currentMs : Nat
deriving DecidableEq, Repr

/-- `adjustInterval` (lines 584-590): a no-op when the armed timer already
has this period, otherwise cancel and re-arm. -/
def adjustInterval (ms : Nat) (sch : SchedState) : SchedState :=
  if sch.currentMs = ms ∧ sch.running then sch
  else { sch with running := true, currentMs := ms }

/-- `m.fixture?.status?.short || 'NS'` for a canonical match: a falsy
status (only the empty string) is replaced by `NS`. -/
def dispStatus (m : CanonicalMatch) : StatusVal :=
  if m.statusShort.truthy then m.statusShort else .str "NS"

/-- The per-match test of `scheduleKickoffRefresh` (lines 598-605): a
not-started match (`(short || 'NS') === 'NS'`) whose kickoff is strictly
within the next 3 minutes. `pd` parses a date string to epoch
milliseconds. -/
def kickoffImminent (pd : String → Int) (now : Int) (m : CanonicalMatch) : Bool :=
  (dispStatus m).eqStr "NS" && decide (0 < pd m.fixtureDate - now)
    && decide (pd m.fixtureDate - now ≤ 180000)

/-- `scheduleKickoffRefresh` (lines 592-622): the pending one-shot is first
cleared, then (re)armed iff some match has an imminent kickoff. -/
def scheduleKickoff (pd : String → Int) (now : Int) (ms : List CanonicalMatch)
    (sch : SchedState) : SchedState :=
  { sch with kickoffPending := ms.any (kickoffImminent pd now) }

/-- The per-match test of `hasUpcomingSoon` inside `tick` (lines 653-658):
a not-started match kicking off within 0 to 3 minutes from now. -/
def upcomingSoon (pd : String → Int) (now : Int) (m : CanonicalMatch) : Bool :=
  (dispStatus m).eqStr "NS" && decide (0 ≤ pd m.fixtureDate - now)
    && decide (pd m.fixtureDate - now ≤ 180000)

/-- `hasUpcomingSoon` inside `tick`. -/
def hasUpcomingSoon (pd : String → Int) (now : Int) (ms : List CanonicalMatch) : Bool :=
  ms.any (upcomingSoon pd now)

/-- `resetDailyState` (lines 115-121): clears the cache triple and
reactivates every configured league. The two last-known maps are not
touched by the source function. -/
def resetDailyState (app : AppState) : AppState :=
  { app with cachedMatches := [], cachedDate := "", lastFetchTime := 0,
             activeLeagues := leagues.map (fun l => l.1) }

/-- The day-rollover prologue of `tick` (lines 625-641), run before the
fetch: on a date change, reset the daily state, remember the new date, and
cancel any pending kickoff one-shot. -/
def rolloverIfNeeded (today : String) (app : AppState) (sch : SchedState) :
    AppState × SchedState :=
  if today ≠ sch.lastLondonDate then
    (resetDailyState app, { sch with lastLondonDate := today, kickoffPending := false })
  else (app, sch)

/-- Observable outcome of one scheduler `tick`. -/
structure TickResult where
  app : AppState
  sched : SchedState
  display : DisplayAction
  fetchAttempts : Nat
deriving DecidableEq, Repr

/-- The epilogue of `tick` (lines 645-666) on the load outcome `r`: an
empty cached list stops the recurring timer, cancels the pending one-shot
and returns; otherwise the interval is re-tuned to urgency (1 minute fast,
5 minutes base) and the kickoff one-shot rescheduled. -/
def tickAfterLoad (pd : String → Int) (now : Int) (r : LoadResult) (sch1 : SchedState) :
    TickResult :=
  if r.state.cachedMatches.length = 0 then
    ⟨r.state, { sch1 with running := false, kickoffPending := false }, r.display, r.fetchAttempts⟩
  else
    ⟨r.state,
     scheduleKickoff pd now r.state.cachedMatches
       (adjustInterval
         (if hasLiveMatches r.state.cachedMatches || hasUpcomingSoon pd now r.state.cachedMatches
          then 60000 else 300000) sch1),
     r.display, r.fetchAttempts⟩

/-- `tick` (lines 624-667): rollover prologue, then `loadTodaysMatches`,
then the timer epilogue. -/
def tick (ymd : String → String) (pd : String → Int) (today : String) (now : Int)
    (resp : String → LeagueResponse) (app : AppState) (sch : SchedState) : TickResult :=
  tickAfterLoad pd now
    (loadTodaysMatches ymd today now resp (rolloverIfNeeded today app sch).1)
    (rolloverIfNeeded today app sch).2

/-- Sample home team for concrete evaluations. -/
def sampleTeamH : Team := ⟨some 10, some "Arsenal", some "crest-h.png"⟩

/-- Sample away team for concrete evaluations. -/
def sampleTeamA : Team := ⟨some 11, some "Chelsea", some "crest-a.png"⟩

/-- A raw match with both scores present and a mapped status. -/
def sampleBoth : RawMatch :=
  ⟨some 7, "2025-03-01T15:00:00Z", some "IN_PLAY", some sampleTeamH, some sampleTeamA,
   some 2, some 1, some "Premier League"⟩

/-- A raw match with the same provider id 7, both scores missing and an
unmapped status code. -/
def sampleMissing : RawMatch :=
  ⟨some 7, "2025-03-01T17:00:00Z", some "XX", some sampleTeamH, some sampleTeamA,
   none, none, some "Premier League"⟩

/-- A raw match with a distinct provider id 8, both scores missing and no
status field. -/
def sampleMissingB : RawMatch :=
  ⟨some 8, "2025-03-01T17:00:00Z", none, some sampleTeamA, some sampleTeamH,
   none, none, some "Premier League"⟩

/-- A canonical match as cached after a successful fetch. -/
def sampleCanon : CanonicalMatch :=
  ⟨"Premier League", "Arsenal", "crest-h.png", "Chelsea", "crest-a.png",
   some 2, some 1, "2025-03-01T15:00:00Z", StatusVal.str "LIVE"⟩

/-- A populated module state: one cached match for 2025-03-01 fetched at
t = 1000 ms, with last-known facts for match key 7. -/
def sampleApp : AppState :=
  ⟨[sampleCanon], "2025-03-01", 1000, ["PL", "BL1", "CL", "PD"],
   [("7", (2, 1))], [("7", StatusVal.str "LIVE")]⟩

/-- The pristine module state at startup. -/
def emptyApp : AppState := ⟨[], "", 0, ["PL", "BL1", "CL", "PD"], [], []⟩

/-- A scheduler state on 2025-03-01 with both timers armed. -/
def sampleSched : SchedState := ⟨"2025-03-01", true, true, 60000⟩

/-- The status normalizer never returns the empty string. -/
theorem mapFDStatusToShort_ne_blank (o : Option String) :
    mapFDStatusToShort o ≠ StatusVal.str "" := by
  cases o with
  | none => simp [mapFDStatusToShort]
  | some s =>
    simp only [mapFDStatusToShort]
    split_ifs <;> simp

/-- The canonical short-status vocabulary the spec names {SCHEDULED, LIVE,
HALFTIME, FULLTIME, POSTPONED, CANCELLED, SUSPENDED}, in the code's short
codes. -/
def canonicalStatusVals : List StatusVal :=
  [.str "LIVE", .str "HT", .str "FT", .str "PST", .str "CANC", .str "SUSP", .str "NS"]

/-- C2 counterexample: the provider code "toString" names an
`Object.prototype` property, so `STATUS_MAP["toString"]` returns the truthy
inherited member and `|| 'NS'` never fires: the result is outside the
canonical vocabulary and is not the scheduled default. -/
theorem status_canonical_counterexample :
    mapFDStatusToShort (some "toString") = StatusVal.inherited "toString"
    ∧ mapFDStatusToShort (some "toString") ∉ canonicalStatusVals
    ∧ mapFDStatusToShort (some "toString") ≠ StatusVal.str "NS" := by
  decide

/-- C2 amended: for every provider status that does not name an
`Object.prototype` property, the normalizer lands in the canonical
vocabulary, and any such code outside the six mapped ones — including an
absent status — maps to the scheduled default `NS`; a code naming an
`Object.prototype` property instead returns the inherited member,
bypassing the default. -/
theorem status_normalizer_total_canonical_amended (o : Option String) :
    ((∀ s ∈ protoKeys, o ≠ some s) →
      mapFDStatusToShort o ∈ canonicalStatusVals
      ∧ ((o ≠ some "IN_PLAY" ∧ o ≠ some "PAUSED" ∧ o ≠ some "FINISHED" ∧ o ≠ some "POSTPONED"
          ∧ o ≠ some "CANCELED" ∧ o ≠ some "SUSPENDED") →
          mapFDStatusToShort o = StatusVal.str "NS"))
    ∧ (∀ s ∈ protoKeys, o = some s → mapFDStatusToShort o = StatusVal.inherited s) := by
  constructor
  · intro hnp
    cases o with
    | none => exact ⟨by decide, fun _ => rfl⟩
    | some s =>
      have hns : s ∉ protoKeys := fun hmem => hnp s hmem rfl
      have hcf : ¬ protoKeys.contains s = true := fun h => hns (List.mem_of_elem_eq_true h)
      constructor
      · simp only [mapFDStatusToShort]
        split_ifs with h1 h2 h3 h4 h5 h6
        · decide
        · decide
        · decide
        · decide
        · decide
        · decide
        · decide
      · rintro ⟨n1, n2, n3, n4, n5, n6⟩
        simp only [mapFDStatusToShort]
        rw [if_neg (by rintro rfl; exact n1 rfl), if_neg (by rintro rfl; exact n2 rfl),
            if_neg (by rintro rfl; exact n3 rfl), if_neg (by rintro rfl; exact n4 rfl),
            if_neg (by rintro rfl; exact n5 rfl), if_neg (by rintro rfl; exact n6 rfl),
            if_neg hcf]
  · intro s hmem hso
    subst hso
    have hct : protoKeys.contains s = true := List.elem_eq_true_of_mem hmem
    simp only [mapFDStatusToShort]
    rw [if_neg (by rintro rfl; revert hmem; decide),
        if_neg (by rintro rfl; revert hmem; decide),
        if_neg (by rintro rfl; revert hmem; decide),
        if_neg (by rintro rfl; revert hmem; decide),
        if_neg (by rintro rfl; revert hmem; decide),
        if_neg (by rintro rfl; revert hmem; decide),
        if_pos hct]

/-- Witness for C2 (amended): the unmapped non-prototype code "GIBBERISH"
defaults to `NS`, and the prototype key "toString" yields the inherited
member. -/
theorem status_normalizer_total_canonical_amended_witness :
    mapFDStatusToShort (some "GIBBERISH") = StatusVal.str "NS"
    ∧ mapFDStatusToShort (some "toString") = StatusVal.inherited "toString" :=
  ⟨((status_normalizer_total_canonical_amended (some "GIBBERISH")).1 (by decide)).2 (by decide),
   (status_normalizer_total_canonical_amended (some "toString")).2 "toString" (by decide) rfl⟩

/-- C1: per-match score reconciliation. Both provider scores present are
used verbatim and recorded under the match key; with either score missing,
a previously recorded pair is substituted whole, and otherwise both fields
become the unknown marker (`none`); the output never has exactly one known
score. -/
theorem score_reconcile_pairwise (L : String) (scores : ScoreMap) (statuses : StatusMap)
    (m : RawMatch) :
    (∀ h a, m.scoreHome = some h → m.scoreAway = some a →
        (reconcileOne L scores statuses m).1.goalsHome = some h
        ∧ (reconcileOne L scores statuses m).1.goalsAway = some a
        ∧ mapLookup (matchKey m) (reconcileOne L scores statuses m).2.1 = some (h, a))
    ∧ ((m.scoreHome = none ∨ m.scoreAway = none) →
        (∀ p : Int × Int, mapLookup (matchKey m) scores = some p →
            (reconcileOne L scores statuses m).1.goalsHome = some p.1
            ∧ (reconcileOne L scores statuses m).1.goalsAway = some p.2)
        ∧ (mapLookup (matchKey m) scores = none →
            (reconcileOne L scores statuses m).1.goalsHome = none
            ∧ (reconcileOne L scores statuses m).1.goalsAway = none))
    ∧ ((reconcileOne L scores statuses m).1.goalsHome.isSome
        ↔ (reconcileOne L scores statuses m).1.goalsAway.isSome) := by
  refine ⟨?_, ?_, ?_⟩
  · intro h a hh ha
    simp [reconcileOne, reconScore, hh, ha, mapLookup]
  · intro hmiss
    constructor
    · intro p hp
      rcases hH : m.scoreHome with _ | h <;> rcases hA : m.scoreAway with _ | a <;>
        simp_all [reconcileOne, reconScore]
    · intro hnone
      rcases hH : m.scoreHome with _ | h <;> rcases hA : m.scoreAway with _ | a <;>
        simp_all [reconcileOne, reconScore]
  · rcases hH : m.scoreHome with _ | h <;> rcases hA : m.scoreAway with _ | a <;>
      rcases hL : mapLookup (matchKey m) scores with _ | p <;>
      simp [reconcileOne, reconScore, hH, hA, hL]

/-- Witness for C1: a match with both scores 2 and 1 present yields the pair
verbatim and records it under its key. -/
theorem score_reconcile_pairwise_witness :
    (reconcileOne "PL" [] [] sampleBoth).1.goalsHome = some 2
    ∧ (reconcileOne "PL" [] [] sampleBoth).1.goalsAway = some 1
    ∧ mapLookup (matchKey sampleBoth) (reconcileOne "PL" [] [] sampleBoth).2.1 = some (2, 1) :=
  (score_reconcile_pairwise "PL" [] [] sampleBoth).1 2 1 rfl rfl

/-- C3 counterexample: a raw match whose status resolves to the default
`NS` with no prior recorded status is a case the claim's final sentence
covers ("every other case"), yet the code records nothing: the status map
stays empty instead of receiving the resolved `NS`. -/
theorem status_record_counterexample :
    mapFDStatusToShort sampleMissing.status = StatusVal.str "NS"
    ∧ mapLookup (matchKey sampleMissing) ([] : StatusMap) = none
    ∧ ¬ (mapLookup (matchKey sampleMissing) (reconcileOne "PL" [] [] sampleMissing).2.2
          = some (mapFDStatusToShort sampleMissing.status)) := by
  decide

/-- C3 amended: when the normalized status is the string `NS` (the only
value the normalizer produces that passes the line-262 test, since it never
yields a blank), a prior known status is preferred and the map is
untouched; with no prior the default is output and the map is still
untouched. Any other normalized value — a canonical code or a truthy
inherited prototype member — is output and recorded under the match key. -/
theorem status_regression_guard_amended (L : String) (scores : ScoreMap)
    (statuses : StatusMap) (m : RawMatch) :
    (mapFDStatusToShort m.status = StatusVal.str "NS" →
      (∀ p, mapLookup (matchKey m) statuses = some p →
        (reconcileOne L scores statuses m).1.statusShort = p
        ∧ (reconcileOne L scores statuses m).2.2 = statuses)
      ∧ (mapLookup (matchKey m) statuses = none →
        (reconcileOne L scores statuses m).1.statusShort = StatusVal.str "NS"
        ∧ (reconcileOne L scores statuses m).2.2 = statuses))
    ∧ (mapFDStatusToShort m.status ≠ StatusVal.str "NS" →
      (reconcileOne L scores statuses m).1.statusShort = mapFDStatusToShort m.status
      ∧ mapLookup (matchKey m) (reconcileOne L scores statuses m).2.2
          = some (mapFDStatusToShort m.status)) := by
  constructor
  · intro hNS
    constructor
    · intro p hp
      simp [reconcileOne, reconStatus, hNS, hp, statusDefaulty, StatusVal.truthy, StatusVal.eqStr]
    · intro hnone
      simp [reconcileOne, reconStatus, hNS, hnone, statusDefaulty, StatusVal.truthy,
        StatusVal.eqStr]
  · intro hne
    have hcond : statusDefaulty (mapFDStatusToShort m.status) = false := by
      cases hv : mapFDStatusToShort m.status with
      | str s =>
        have h2 : s ≠ "" := by
          rintro rfl
          exact mapFDStatusToShort_ne_blank m.status hv
        have h1 : s ≠ "NS" := by
          rintro rfl
          exact hne hv
        simp [statusDefaulty, StatusVal.truthy, StatusVal.eqStr, h1, h2]
      | inherited k => simp [statusDefaulty, StatusVal.truthy, StatusVal.eqStr]
    simp [reconcileOne, reconStatus, hcond, mapLookup]

/-- Witness for C3 (amended): a match previously known LIVE, re-fetched
with the unmapped non-prototype status code "XX", retains LIVE and leaves
the map unchanged. -/
theorem status_regression_guard_amended_witness :
    (reconcileOne "PL" [] [(matchKey sampleMissing, StatusVal.str "LIVE")]
        sampleMissing).1.statusShort = StatusVal.str "LIVE"
    ∧ (reconcileOne "PL" [] [(matchKey sampleMissing, StatusVal.str "LIVE")]
        sampleMissing).2.2
        = [(matchKey sampleMissing, StatusVal.str "LIVE")] :=
  ((status_regression_guard_amended "PL" []
      [(matchKey sampleMissing, StatusVal.str "LIVE")] sampleMissing).1 (by decide)).1
    (StatusVal.str "LIVE") (by decide)

/-- C10: on a cache hit the load operation displays the cached matches and
returns with the whole module state unchanged — in particular
`lastFetchTime` is not refreshed — and zero transport requests issued. -/
theorem cache_hit_frame (ymd : String → String) (today : String) (now : Int)
    (resp : String → LeagueResponse) (st : AppState)
    (h : shouldUseCache st today now) :
    loadTodaysMatches ymd today now resp st
      = ⟨st, DisplayAction.showMatches st.cachedMatches, 0⟩ := by
  unfold loadTodaysMatches
  rw [if_pos h]

/-- Witness for C10 at a fresh same-day cache. -/
theorem cache_hit_frame_witness :
    loadTodaysMatches (fun _ => "2025-03-01") "2025-03-01" 1000
        (fun _ => LeagueResponse.rateLimited) sampleApp
      = ⟨sampleApp, DisplayAction.showMatches sampleApp.cachedMatches, 0⟩ :=
  cache_hit_frame _ _ _ _ _ (by refine ⟨by decide, rfl, by decide⟩)

/-- C4: the load operation issues no transport request iff the cached list
is non-empty, the cached date equals today, and the time since the last real
fetch is strictly below `CACHE_DURATION`; liveness of cached matches plays
no role. -/
theorem cache_reuse_iff (ymd : String → String) (today : String) (now : Int)
    (resp : String → LeagueResponse) (st : AppState) :
    (loadTodaysMatches ymd today now resp st).fetchAttempts = 0 ↔
      (0 < st.cachedMatches.length ∧ st.cachedDate = today
        ∧ now - st.lastFetchTime < CACHE_DURATION) := by
  unfold loadTodaysMatches
  by_cases h : shouldUseCache st today now
  · rw [if_pos h]
    simpa using h
  · rw [if_neg h]
    by_cases h1 : 0 < (freshBatch ymd today resp st).total
    · rw [if_pos h1]
      exact iff_of_false (by simp [leagues]) h
    · rw [if_neg h1]
      by_cases h2 : (freshBatch ymd today resp st).rateLimited = true
          ∧ 0 < st.cachedMatches.length ∧ st.cachedDate = today
      · rw [if_pos h2]
        exact iff_of_false (by simp [leagues]) h
      · rw [if_neg h2]
        by_cases h3 : 0 < st.cachedMatches.length ∧ st.cachedDate = today
        · rw [if_pos h3]
          exact iff_of_false (by simp [leagues]) h
        · rw [if_neg h3]
          exact iff_of_false (by simp [leagues]) h

/-- C7: the explicit no-matches outcome appears iff the fresh batch total is
zero and no same-day non-empty cache exists; and whenever a same-day
non-empty cache exists and the batch total is zero, the cached matches are
served instead. -/
theorem empty_state_iff (ymd : String → String) (today : String) (now : Int)
    (resp : String → LeagueResponse) (st : AppState) :
    ((loadTodaysMatches ymd today now resp st).display = DisplayAction.noMatches ↔
      ((freshBatch ymd today resp st).total = 0
        ∧ ¬(0 < st.cachedMatches.length ∧ st.cachedDate = today)))
    ∧ ((0 < st.cachedMatches.length ∧ st.cachedDate = today
          ∧ (freshBatch ymd today resp st).total = 0) →
        (loadTodaysMatches ymd today now resp st).display
          = DisplayAction.showMatches st.cachedMatches) := by
  unfold loadTodaysMatches
  by_cases h : shouldUseCache st today now
  · rw [if_pos h]
    exact ⟨iff_of_false (by simp) (fun hc => hc.2 ⟨h.1, h.2.1⟩), fun _ => rfl⟩
  · rw [if_neg h]
    by_cases h1 : 0 < (freshBatch ymd today resp st).total
    · rw [if_pos h1]
      exact ⟨iff_of_false (by simp) (fun hc => by omega), fun hc => absurd hc.2.2 (by omega)⟩
    · rw [if_neg h1]
      by_cases h2 : (freshBatch ymd today resp st).rateLimited = true
          ∧ 0 < st.cachedMatches.length ∧ st.cachedDate = today
      · rw [if_pos h2]
        exact ⟨iff_of_false (by simp) (fun hc => hc.2 ⟨h2.2.1, h2.2.2⟩), fun _ => rfl⟩
      · rw [if_neg h2]
        by_cases h3 : 0 < st.cachedMatches.length ∧ st.cachedDate = today
        · rw [if_pos h3]
          exact ⟨iff_of_false (by simp) (fun hc => hc.2 ⟨h3.1, h3.2⟩), fun _ => rfl⟩
        · rw [if_neg h3]
          exact ⟨iff_of_true rfl ⟨by omega, h3⟩, fun hc => absurd ⟨hc.1, hc.2.1⟩ h3⟩

/-- Witness for C7: a stale same-day cache plus an all-rate-limited batch
(total zero) serves the cached matches rather than the empty state. -/
theorem empty_state_iff_witness :
    (loadTodaysMatches (fun _ => "2025-03-01") "2025-03-01" 999999999
        (fun _ => LeagueResponse.rateLimited) sampleApp).display
      = DisplayAction.showMatches sampleApp.cachedMatches :=
  (empty_state_iff (fun _ => "2025-03-01") "2025-03-01" 999999999
      (fun _ => LeagueResponse.rateLimited) sampleApp).2 ⟨by decide, rfl, by decide⟩

/-- Normalization preserves the number of matches of a league's batch. -/
theorem reconcileBatch_length (L : String) :
    ∀ (s : ScoreMap) (t : StatusMap) (l : List RawMatch),
    ((reconcileBatch L s t l).1).length = l.length := by
  intro s t l
  induction l generalizing s t with
  | nil => rfl
  | cons m rest ih => simp [reconcileBatch, ih]

/-- The input rate-limit flag only feeds the output flag: running the league
loop with the flag up equals running it with any flag and forcing the output
flag up. -/
theorem processLeagues_true_flag (ymd : String → String) (today : String)
    (ls : List ((String × Nat) × LeagueResponse)) :
    ∀ (s : ScoreMap) (t : StatusMap) (rl : Bool),
    processLeagues ymd today ls s t true
      = { processLeagues ymd today ls s t rl with rateLimited := true } := by
  induction ls with
  | nil => intro s t rl; rfl
  | cons x rest ih =>
    intro s t rl
    obtain ⟨lg, resp⟩ := x
    cases resp with
    | rateLimited => exact ih s t true
    | httpError code => exact ih s t rl
    | networkError => exact ih s t rl
    | ok raw =>
      simp only [processLeagues]
      split_ifs with hc
      · rw [ih _ _ rl]
      · rw [ih _ _ rl]

/-- Inserting a rate-limited league anywhere in the batch leaves every other
league's contribution and the final maps unchanged and only forces the
batch's rate-limit flag. -/
theorem processLeagues_insert_429 (ymd : String → String) (today : String)
    (l : String × Nat) (ys : List ((String × Nat) × LeagueResponse)) :
    ∀ (xs : List ((String × Nat) × LeagueResponse)) (s : ScoreMap) (t : StatusMap) (rl : Bool),
    processLeagues ymd today (xs ++ (l, LeagueResponse.rateLimited) :: ys) s t rl
      = { processLeagues ymd today (xs ++ ys) s t rl with rateLimited := true } := by
  intro xs
  induction xs with
  | nil =>
    intro s t rl
    simp only [List.nil_append]
    exact processLeagues_true_flag ymd today ys s t rl
  | cons x rest ih =>
    intro s t rl
    obtain ⟨lg, resp⟩ := x
    cases resp with
    | rateLimited =>
      simp only [List.cons_append, processLeagues]
      exact ih s t true
    | httpError code =>
      simp only [List.cons_append, processLeagues]
      exact ih s t rl
    | networkError =>
      simp only [List.cons_append, processLeagues]
      exact ih s t rl
    | ok raw =>
      simp only [List.cons_append, processLeagues, List.append_eq]
      split_ifs with hc
      · rw [ih _ _ rl]
      · rw [ih _ _ rl]

/-- C5: a 429 for one league skips only that league and forces the batch's
rate-limited flag while every other league is still processed; in the
concrete two-league shape, league A rate-limited and league B answering
three same-day matches yield exactly B's three normalized matches, the flag
up, and a total of 3 — the league loop is a total function, so no exception
escapes the batch. -/
theorem rate_limit_skip_batch :
    (∀ (ymd : String → String) (today : String) (l : String × Nat)
        (ys xs : List ((String × Nat) × LeagueResponse)) (s : ScoreMap) (t : StatusMap) (rl : Bool),
      processLeagues ymd today (xs ++ (l, LeagueResponse.rateLimited) :: ys) s t rl
        = { processLeagues ymd today (xs ++ ys) s t rl with rateLimited := true })
    ∧ (∀ (ymd : String → String) (today : String) (A B : String × Nat)
        (bs : List RawMatch) (s : ScoreMap) (t : StatusMap),
      (bs.filter (fun m => ymd m.utcDate == today)).length = 3 →
      processLeagues ymd today
          [(A, LeagueResponse.rateLimited), (B, LeagueResponse.ok bs)] s t false
        = ⟨(reconcileBatch B.1 s t (bs.filter (fun m => ymd m.utcDate == today))).1, 3,
           (reconcileBatch B.1 s t (bs.filter (fun m => ymd m.utcDate == today))).2.1,
           (reconcileBatch B.1 s t (bs.filter (fun m => ymd m.utcDate == today))).2.2, true⟩) := by
  constructor
  · intro ymd today l ys xs s t rl
    exact processLeagues_insert_429 ymd today l ys xs s t rl
  · intro ymd today A B bs s t hlen
    have h3 : ((reconcileBatch B.1 s t (bs.filter (fun m => ymd m.utcDate == today))).1).length = 3 := by
      rw [reconcileBatch_length]
      exact hlen
    show processLeagues ymd today [(B, LeagueResponse.ok bs)] s t true = _
    simp only [processLeagues]
    rw [if_pos (show 0 < ((reconcileBatch B.1 s t (bs.filter (fun m => ymd m.utcDate == today))).1).length by omega)]
    simp [h3]

/-- Witness for C5: league PL rate-limited, league BL1 returning three
same-day matches: the flag is up and exactly three matches are produced. -/
theorem rate_limit_skip_batch_witness :
    (processLeagues (fun _ => "2025-03-01") "2025-03-01"
        [(("PL", 2021), LeagueResponse.rateLimited),
         (("BL1", 2002), LeagueResponse.ok [sampleBoth, sampleMissing, sampleMissingB])]
        [] [] false).rateLimited = true
    ∧ (processLeagues (fun _ => "2025-03-01") "2025-03-01"
        [(("PL", 2021), LeagueResponse.rateLimited),
         (("BL1", 2002), LeagueResponse.ok [sampleBoth, sampleMissing, sampleMissingB])]
        [] [] false).allMatches.length = 3 := by
  have h := rate_limit_skip_batch.2 (fun _ => "2025-03-01") "2025-03-01" ("PL", 2021) ("BL1", 2002)
      [sampleBoth, sampleMissing, sampleMissingB] [] [] (by decide)
  rw [h]
  constructor
  · rfl
  · decide

/-- C6 counterexample: the tick rollover prologue (run before any fetch is
processed) does not empty the last-known facts: with a date change and
non-empty last-known maps, both maps survive `resetDailyState` untouched,
contradicting the claim that they are emptied. -/
theorem day_rollover_counterexample :
    "2025-03-02" ≠ sampleSched.lastLondonDate
    ∧ (rolloverIfNeeded "2025-03-02" sampleApp sampleSched).1.lastKnownScores ≠ []
    ∧ (rolloverIfNeeded "2025-03-02" sampleApp sampleSched).1.lastKnownStatus ≠ [] := by
  decide

/-- C6 amended: on a date change the next tick, before any fetch, discards
the cached matches, cached date and last fetch time, re-arms all configured
leagues, remembers the new date and cancels the pending kickoff one-shot;
the last-known scores and statuses are carried over unchanged. -/
theorem day_rollover_amended (today : String) (app : AppState) (sch : SchedState)
    (h : today ≠ sch.lastLondonDate) :
    rolloverIfNeeded today app sch
      = ({ app with
             cachedMatches := [], cachedDate := "", lastFetchTime := 0,
             activeLeagues := leagues.map (fun l => l.1) },
         { sch with lastLondonDate := today, kickoffPending := false }) := by
  unfold rolloverIfNeeded resetDailyState
  rw [if_pos h]

/-- Witness for C6 (amended) at a concrete date change. -/
theorem day_rollover_amended_witness :
    rolloverIfNeeded "2025-03-02" sampleApp sampleSched
      = ({ sampleApp with
             cachedMatches := [], cachedDate := "", lastFetchTime := 0,
             activeLeagues := leagues.map (fun l => l.1) },
         { sampleSched with lastLondonDate := "2025-03-02", kickoffPending := false }) :=
  day_rollover_amended "2025-03-02" sampleApp sampleSched (by decide)

/-- C9: when a tick ends with an empty cached match list, the recurring
timer is stopped and the pending kickoff one-shot cancelled — the loop does
not re-arm itself. -/
theorem scheduler_stops_on_empty (ymd : String → String) (pd : String → Int)
    (today : String) (now : Int) (resp : String → LeagueResponse)
    (app : AppState) (sch : SchedState)
    (h : (tick ymd pd today now resp app sch).app.cachedMatches = []) :
    (tick ymd pd today now resp app sch).sched.running = false
    ∧ (tick ymd pd today now resp app sch).sched.kickoffPending = false := by
  unfold tick tickAfterLoad
  by_cases hc : (loadTodaysMatches ymd today now resp
      (rolloverIfNeeded today app sch).1).state.cachedMatches.length = 0
  · rw [if_pos hc]
    exact ⟨rfl, rfl⟩
  · exfalso
    apply hc
    unfold tick tickAfterLoad at h
    rw [if_neg hc] at h
    dsimp only at h
    rw [h]
    rfl

/-- Witness for C9: all leagues rate-limited from a pristine state leaves
the cache empty and the scheduler fully stopped. -/
theorem scheduler_stops_on_empty_witness :
    (tick (fun _ => "2025-03-01") (fun _ => 0) "2025-03-01" 0
        (fun _ => LeagueResponse.rateLimited) emptyApp sampleSched).sched.running = false
    ∧ (tick (fun _ => "2025-03-01") (fun _ => 0) "2025-03-01" 0
        (fun _ => LeagueResponse.rateLimited) emptyApp sampleSched).sched.kickoffPending = false :=
  scheduler_stops_on_empty _ _ _ _ _ _ _ (by decide)

/-- Score reconciliation writes only its own key: lookups at other keys are
unchanged. -/
theorem reconScore_snd_lookup_ne (s : ScoreMap) (k k' : String) (hk : k' ≠ k)
    (h a : Option Int) :
    mapLookup k' (reconScore s k h a).2 = mapLookup k' s := by
  cases h with
  | none => cases hL : mapLookup k s <;> simp [reconScore, hL]
  | some x =>
    cases a with
    | none => cases hL : mapLookup k s <;> simp [reconScore, hL]
    | some y => simp [reconScore, mapLookup_cons, Ne.symm hk]

/-- Status reconciliation writes only its own key. -/
theorem reconStatus_snd_lookup_ne (t : StatusMap) (k k' : String) (hk : k' ≠ k)
    (s0 : StatusVal) :
    mapLookup k' (reconStatus t k s0).2 = mapLookup k' t := by
  unfold reconStatus
  split_ifs with hc
  · cases hL : mapLookup k t <;> simp [hL]
  · simp [mapLookup_cons, Ne.symm hk]

/-- The goal pair computed by score reconciliation only depends on the map
through the lookup at its own key after its own write. -/
theorem reconScore_fst_stable (s sa : ScoreMap) (k : String) (h a : Option Int)
    (hs : mapLookup k sa = mapLookup k (reconScore s k h a).2) :
    (reconScore sa k h a).1 = (reconScore s k h a).1 := by
  cases h with
  | none =>
    cases hL : mapLookup k s with
    | none => simp [reconScore, hL] at hs; simp [reconScore, hs, hL]
    | some p => simp [reconScore, hL] at hs; simp [reconScore, hs, hL]
  | some x =>
    cases a with
    | none =>
      cases hL : mapLookup k s with
      | none => simp [reconScore, hL] at hs; simp [reconScore, hs, hL]
      | some p => simp [reconScore, hL] at hs; simp [reconScore, hs, hL]
    | some y => rfl

/-- The status computed by status reconciliation only depends on the map
through the lookup at its own key after its own write. -/
theorem reconStatus_fst_stable (t ta : StatusMap) (k : String) (s0 : StatusVal)
    (ht : mapLookup k ta = mapLookup k (reconStatus t k s0).2) :
    (reconStatus ta k s0).1 = (reconStatus t k s0).1 := by
  unfold reconStatus at *
  split_ifs at * with hc
  · cases hL : mapLookup k t with
    | none => simp [hL] at ht; simp [ht, hL]
    | some prev => simp [hL] at ht; simp [ht, hL]
  · rfl

/-- One reconciliation step leaves score lookups at other keys unchanged. -/
theorem reconcileOne_lookup_score_ne (L : String) (s : ScoreMap) (t : StatusMap)
    (m : RawMatch) (k' : String) (hk : k' ≠ matchKey m) :
    mapLookup k' (reconcileOne L s t m).2.1 = mapLookup k' s :=
  reconScore_snd_lookup_ne s (matchKey m) k' hk m.scoreHome m.scoreAway

/-- One reconciliation step leaves status lookups at other keys unchanged. -/
theorem reconcileOne_lookup_status_ne (L : String) (s : ScoreMap) (t : StatusMap)
    (m : RawMatch) (k' : String) (hk : k' ≠ matchKey m) :
    mapLookup k' (reconcileOne L s t m).2.2 = mapLookup k' t :=
  reconStatus_snd_lookup_ne t (matchKey m) k' hk (mapFDStatusToShort m.status)

/-- A whole batch leaves score lookups at keys outside the batch unchanged. -/
theorem reconcileBatch_lookup_score_ne (L : String) :
    ∀ (raw : List RawMatch) (s : ScoreMap) (t : StatusMap) (k' : String),
    k' ∉ raw.map matchKey →
    mapLookup k' (reconcileBatch L s t raw).2.1 = mapLookup k' s := by
  intro raw
  induction raw with
  | nil => intro s t k' _; rfl
  | cons m rest ih =>
    intro s t k' hk
    simp only [List.map_cons, List.mem_cons, not_or] at hk
    show mapLookup k'
        (reconcileBatch L (reconcileOne L s t m).2.1 (reconcileOne L s t m).2.2 rest).2.1 = _
    rw [ih _ _ _ hk.2, reconcileOne_lookup_score_ne L s t m k' hk.1]

/-- A whole batch leaves status lookups at keys outside the batch unchanged. -/
theorem reconcileBatch_lookup_status_ne (L : String) :
    ∀ (raw : List RawMatch) (s : ScoreMap) (t : StatusMap) (k' : String),
    k' ∉ raw.map matchKey →
    mapLookup k' (reconcileBatch L s t raw).2.2 = mapLookup k' t := by
  intro raw
  induction raw with
  | nil => intro s t k' _; rfl
  | cons m rest ih =>
    intro s t k' hk
    simp only [List.map_cons, List.mem_cons, not_or] at hk
    show mapLookup k'
        (reconcileBatch L (reconcileOne L s t m).2.1 (reconcileOne L s t m).2.2 rest).2.2 = _
    rw [ih _ _ _ hk.2, reconcileOne_lookup_status_ne L s t m k' hk.1]

/-- Reprocessing a match against maps that agree, at its own key, with the
maps left by its first processing yields the same canonical match. -/
theorem reconcileOne_stable (L : String) (s sa : ScoreMap) (t ta : StatusMap) (m : RawMatch)
    (hs : mapLookup (matchKey m) sa = mapLookup (matchKey m) (reconcileOne L s t m).2.1)
    (ht : mapLookup (matchKey m) ta = mapLookup (matchKey m) (reconcileOne L s t m).2.2) :
    (reconcileOne L sa ta m).1 = (reconcileOne L s t m).1 := by
  have h1 : (reconScore sa (matchKey m) m.scoreHome m.scoreAway).1
      = (reconScore s (matchKey m) m.scoreHome m.scoreAway).1 :=
    reconScore_fst_stable s sa (matchKey m) m.scoreHome m.scoreAway hs
  have h2 : (reconStatus ta (matchKey m) (mapFDStatusToShort m.status)).1
      = (reconStatus t (matchKey m) (mapFDStatusToShort m.status)).1 :=
    reconStatus_fst_stable t ta (matchKey m) (mapFDStatusToShort m.status) ht
  unfold reconcileOne
  simp [h1, h2]

/-- Rerunning a batch with pairwise-distinct keys against any maps that
agree, at each key of the batch, with the maps left by the first run yields
the same canonical list. -/
theorem reconcileBatch_agree (L : String) :
    ∀ (raw : List RawMatch) (s sa : ScoreMap) (t ta : StatusMap),
    (raw.map matchKey).Nodup →
    (∀ m ∈ raw,
        mapLookup (matchKey m) sa = mapLookup (matchKey m) (reconcileBatch L s t raw).2.1
        ∧ mapLookup (matchKey m) ta = mapLookup (matchKey m) (reconcileBatch L s t raw).2.2) →
    (reconcileBatch L sa ta raw).1 = (reconcileBatch L s t raw).1 := by
  intro raw
  induction raw with
  | nil => intro s sa t ta _ _; rfl
  | cons m rest ih =>
    intro s sa t ta hnd hag
    simp only [List.map_cons, List.nodup_cons] at hnd
    obtain ⟨hm, hnd2⟩ := hnd
    have hs1 : mapLookup (matchKey m) (reconcileBatch L s t (m :: rest)).2.1
        = mapLookup (matchKey m) (reconcileOne L s t m).2.1 := by
      show mapLookup (matchKey m)
          (reconcileBatch L (reconcileOne L s t m).2.1 (reconcileOne L s t m).2.2 rest).2.1 = _
      exact reconcileBatch_lookup_score_ne L rest _ _ _ hm
    have ht1 : mapLookup (matchKey m) (reconcileBatch L s t (m :: rest)).2.2
        = mapLookup (matchKey m) (reconcileOne L s t m).2.2 := by
      show mapLookup (matchKey m)
          (reconcileBatch L (reconcileOne L s t m).2.1 (reconcileOne L s t m).2.2 rest).2.2 = _
      exact reconcileBatch_lookup_status_ne L rest _ _ _ hm
    have hhead : (reconcileOne L sa ta m).1 = (reconcileOne L s t m).1 :=
      reconcileOne_stable L s sa t ta m
        (((hag m (List.mem_cons_self m rest)).1).trans hs1)
        (((hag m (List.mem_cons_self m rest)).2).trans ht1)
    have htail : ∀ m2 ∈ rest,
        mapLookup (matchKey m2) (reconcileOne L sa ta m).2.1
          = mapLookup (matchKey m2)
              (reconcileBatch L (reconcileOne L s t m).2.1 (reconcileOne L s t m).2.2 rest).2.1
        ∧ mapLookup (matchKey m2) (reconcileOne L sa ta m).2.2
          = mapLookup (matchKey m2)
              (reconcileBatch L (reconcileOne L s t m).2.1 (reconcileOne L s t m).2.2 rest).2.2 := by
      intro m2 hm2
      have hne : matchKey m2 ≠ matchKey m := by
        intro he
        exact hm (he ▸ List.mem_map_of_mem matchKey hm2)
      constructor
      · rw [reconcileOne_lookup_score_ne L sa ta m _ hne]
        exact (hag m2 (List.mem_cons_of_mem m hm2)).1
      · rw [reconcileOne_lookup_status_ne L sa ta m _ hne]
        exact (hag m2 (List.mem_cons_of_mem m hm2)).2
    show (reconcileOne L sa ta m).1
          :: (reconcileBatch L (reconcileOne L sa ta m).2.1 (reconcileOne L sa ta m).2.2 rest).1
        = (reconcileOne L s t m).1
          :: (reconcileBatch L (reconcileOne L s t m).2.1 (reconcileOne L s t m).2.2 rest).1
    rw [hhead, ih (reconcileOne L s t m).2.1 (reconcileOne L sa ta m).2.1
        (reconcileOne L s t m).2.2 (reconcileOne L sa ta m).2.2 hnd2 htail]

/-- C8 counterexample: a batch containing two raw matches with the same
derived key — the first with missing scores, the second with both scores
present — reconciles differently on a second run: the first run records the
pair under the shared key, so the rerun back-fills the first match's
unknown scores. -/
theorem reconcile_idempotent_counterexample :
    ¬ ((reconcileBatch "PL" (reconcileBatch "PL" [] [] [sampleMissing, sampleBoth]).2.1
          (reconcileBatch "PL" [] [] [sampleMissing, sampleBoth]).2.2
          [sampleMissing, sampleBoth]).1
        = (reconcileBatch "PL" [] [] [sampleMissing, sampleBoth]).1) := by
  decide

/-- C8 amended: reconciling the same raw batch twice with no external map
changes between runs yields an identical canonical list, provided the keys
derived for the batch's matches are pairwise distinct. -/
theorem reconcile_idempotent_nodup (L : String) (s : ScoreMap) (t : StatusMap)
    (raw : List RawMatch) (hnd : (raw.map matchKey).Nodup) :
    (reconcileBatch L (reconcileBatch L s t raw).2.1 (reconcileBatch L s t raw).2.2 raw).1
      = (reconcileBatch L s t raw).1 :=
  reconcileBatch_agree L raw s (reconcileBatch L s t raw).2.1 t (reconcileBatch L s t raw).2.2
    hnd (fun _ _ => ⟨rfl, rfl⟩)

/-- Witness for C8 (amended) on a two-match batch with distinct keys. -/
theorem reconcile_idempotent_nodup_witness :
    (reconcileBatch "PL" (reconcileBatch "PL" [] [] [sampleBoth, sampleMissingB]).2.1
        (reconcileBatch "PL" [] [] [sampleBoth, sampleMissingB]).2.2
        [sampleBoth, sampleMissingB]).1
      = (reconcileBatch "PL" [] [] [sampleBoth, sampleMissingB]).1 :=
  reconcile_idempotent_nodup "PL" [] [] [sampleBoth, sampleMissingB] (by decide)

end FootballApp
